import Mathlib

/-!
Verification of the `your_game_of_life` crate (src/src/cell.rs, src/src/lib.rs).

A shallow embedding: `Cell` mirrors the RGB cell value type, `Life` mirrors the
grid struct `Life<const HEIGHT: usize, const WIDTH: usize>` with its storage
`cells: [[Cell; HEIGHT]; WIDTH]` (outer array of length WIDTH, inner arrays of
length HEIGHT) modelled as a list of lists together with the two dimension
fields and the well-formedness predicate `Life.wf` tying the lengths to them.
u8 channels are modelled as `Nat` (claims restrict to values below 256 where it
matters; no arithmetic is performed on channels, so no overflow arises).

Fallible operations return `Option`/`Except`: a `none`/`.error` models a Rust
panic (for the checked `get`/`get_mut`/`set` indexing) or an out-of-bounds
`get_unchecked` (undefined behaviour) in `get_surrounding`/`play`.
-/

namespace YourGameOfLife

/-- Mirror of `Cell` (cell.rs lines 6-14): three 8-bit colour channels. -/
structure Cell where
  r : Nat
  g : Nat
  b : Nat
deriving DecidableEq

/-- Mirror of the derived `Cell::default()`: all channels zero. -/
def Cell.default : Cell := ⟨0, 0, 0⟩

/-- Mirror of `Cell::alive` (cell.rs lines 19-25). -/
def Cell.alive : Cell := ⟨255, 255, 255⟩

/-- Mirror of `Cell::dead` (cell.rs lines 29-35). -/
def Cell.dead : Cell := ⟨0, 0, 0⟩

/-- Mirror of `Cell::is_alive` (cell.rs lines 39-41):
`self.r != 0 || self.g != 0 || self.b != 0`. -/
def Cell.is_alive (c : Cell) : Bool := c.r != 0 || c.g != 0 || c.b != 0

/-- Mirror of `Cell::all` (cell.rs lines 45-51). -/
def Cell.all (rgb : Nat) : Cell := ⟨rgb, rgb, rgb⟩

/-- Mirror of `Cell::white` (cell.rs lines 57-63). -/
def Cell.white : Cell := ⟨255, 255, 255⟩

/-- Mirror of `Cell::black` (cell.rs lines 69-75). -/
def Cell.black : Cell := ⟨0, 0, 0⟩

/-- Mirror of `Cell::red` (cell.rs lines 79-85). -/
def Cell.red : Cell := ⟨255, 0, 0⟩

/-- Mirror of `Cell::green` (cell.rs lines 89-95). -/
def Cell.green : Cell := ⟨0, 255, 0⟩

/-- Mirror of `Cell::blue` (cell.rs lines 99-105). -/
def Cell.blue : Cell := ⟨0, 0, 255⟩

/-- Mirror of `Life<const HEIGHT: usize, const WIDTH: usize>` (lib.rs lines
52-57). The Rust storage is `cells: [[Cell; HEIGHT]; WIDTH]`: the OUTER array
has length WIDTH and each INNER array has length HEIGHT. The const generics
become the fields `HEIGHT`/`WIDTH`, and `Life.wf` states the length facts the
Rust types enforce. -/
structure Life where
  HEIGHT : Nat
  WIDTH : Nat
  cells : List (List Cell)
  out_of_bounds : Cell
deriving DecidableEq

/-- The shape invariant carried by the Rust type `[[Cell; HEIGHT]; WIDTH]`:
WIDTH columns, each of HEIGHT cells. -/
def Life.wf (L : Life) : Prop :=
  L.cells.length = L.WIDTH ∧ ∀ col ∈ L.cells, col.length = L.HEIGHT

instance (L : Life) : Decidable L.wf := by
  unfold Life.wf
  infer_instance

/-- Double indexing `cols[x][y]`, `none` when either index is out of range. -/
def idx2 (cols : List (List Cell)) (x y : Nat) : Option Cell :=
  match cols[x]? with
  | none => none
  | some col => col[y]?

/-- The unchecked access pattern `self.cells.get_unchecked(x).get_unchecked(y)`
used by `get_surrounding` (lib.rs line 156); `none` models the undefined
behaviour of an out-of-range `get_unchecked`. -/
def Life.getu (L : Life) (x y : Nat) : Option Cell :=
  idx2 L.cells x y

/-- Mirror of `Life::get` (lib.rs lines 114-116): `self.cells[y][x]`, with
`none` modelling the panic on an out-of-range index. Note the checked
accessors index the outer array by `y` and the inner array by `x`. -/
def Life.get (L : Life) (x y : Nat) : Option Cell :=
  match L.cells[y]? with
  | none => none
  | some row => row[x]?

/-- Mirror of `Life::get_mut` (lib.rs lines 136-138): forming
`&mut self.cells[y][x]` performs the same checked indexing as `get`;
the modelled value is the cell the returned reference denotes. -/
def Life.get_mut (L : Life) (x y : Nat) : Option Cell :=
  match L.cells[y]? with
  | none => none
  | some row => row[x]?

/-- Mirror of `Life::set` (lib.rs lines 147-149): `self.cells[y][x] = cell`.
The two checked index operations (outer by `y`, then inner by `x`) happen
before the store; `none` models the panic. -/
def Life.set (L : Life) (x y : Nat) (c : Cell) : Option Life :=
  match L.cells[y]? with
  | none => none
  | some row =>
    match row[x]? with
    | none => none
    | some _ => some { L with cells := L.cells.set y (row.set x c) }

/-- One conditional slot of `get_surrounding`: the source initializes each of
the eight locals to `Cell::default()` (lib.rs line 152) and overwrites it with
an unchecked read only under the corresponding bounds guard. -/
def Life.readOr (L : Life) (gd : Prop) [Decidable gd] (x y : Nat) : Option Cell :=
  if gd then L.getu x y else some Cell.default

/-- Mirror of `Life::get_surrounding` (lib.rs lines 151-189). Each slot is
read by `insert!` exactly under the conjunction of the nested `if` guards of
the source (reads have no effect besides possibly faulting, so flattening the
nesting and sequencing the slots preserves the semantics in `Option`);
the result list is `[tl, t, tr, l, r, bl, b, br]` (line 188).
The source's bottom-neighbour guard really is `y != WIDTH - 1` (line 184),
not `HEIGHT`; it is reproduced here verbatim. `Nat` subtraction only differs
from `usize` subtraction in `HEIGHT - 1`/`WIDTH - 1` when a dimension is 0, a
case in which `play` never invokes this function. -/
def Life.get_surrounding (L : Life) (x y : Nat) : Option (List Cell) := do
  let l ← L.readOr (x ≠ 0) (x - 1) y
  let tl ← L.readOr (x ≠ 0 ∧ y ≠ 0) (x - 1) (y - 1)
  let bl ← L.readOr (x ≠ 0 ∧ y ≠ L.HEIGHT - 1) (x - 1) (y + 1)
  let t ← L.readOr (y ≠ 0) x (y - 1)
  let tr ← L.readOr (y ≠ 0 ∧ x ≠ L.WIDTH - 1) (x + 1) (y - 1)
  let r ← L.readOr (x ≠ L.WIDTH - 1) (x + 1) y
  let br ← L.readOr (x ≠ L.WIDTH - 1 ∧ y ≠ L.HEIGHT - 1) (x + 1) (y + 1)
  let b ← L.readOr (y ≠ L.WIDTH - 1) x (y + 1)
  pure [tl, t, tr, l, r, bl, b, br]

/-- The rule closure `impl FnMut(Cell, [Cell; 8], usize, usize) -> Cell`.
`σ` models the closure's captured mutable state (`FnMut`), `ε` models a fault
(panic) raised by the rule. A call receives the current cell, the neighbour
array, x, y and the captured state, and either faults or yields the new cell
and the updated state. -/
abbrev Rule (ε σ : Type) : Type :=
  Cell → List Cell → Nat → Nat → σ → Except ε (Cell × σ)

/-- A rule that never faults, whose output cell is a pure function of the cell
arguments and whose state evolves by `upd` at each invocation. -/
def mkRule {ε σ : Type} (g : Cell → List Cell → Nat → Nat → Cell)
    (upd : Nat → Nat → σ → σ) : Rule ε σ :=
  fun c nb x y s => .ok (g c nb x y, upd x y s)

/-- A pure, total rule (no captured state, no fault). -/
def pureRule (g : Cell → List Cell → Nat → Nat → Cell) : Rule Empty Unit :=
  mkRule g (fun _ _ s => s)

/-- The same pure rule instrumented to log the coordinates of every
invocation, in order, in its captured state. -/
def logRule (g : Cell → List Cell → Nat → Nat → Cell) :
    Rule Empty (List (Nat × Nat)) :=
  mkRule g (fun x y log => log ++ [(x, y)])

/-- A fault during `play`: either an out-of-bounds unchecked read inside
`get_surrounding` (undefined behaviour in the source), or a fault raised by
the caller-supplied rule itself. -/
inductive PlayErr (ε : Type) where
  | oob : PlayErr ε
  | rule : ε → PlayErr ε
deriving DecidableEq

/-- The inner loop of `Life::play` (lib.rs lines 225-229) over one column:
for each cell, compute `get_surrounding` (faulting first if it faults), then
invoke the rule (propagating its fault), and record the new cell for the slot
`proto[x][y]`. Since the loops overwrite every slot of `proto` (a copy of
`cells`) exactly once in order, the freshly written column is built directly. -/
def playRow {ε σ : Type} (L : Life) (f : Rule ε σ) (x : Nat) :
    List Cell → Nat → σ → Except (PlayErr ε) (List Cell × σ)
  | [], _, s => .ok ([], s)
  | cell :: rest, y, s =>
    match L.get_surrounding x y with
    | none => .error .oob
    | some nb =>
      match f cell nb x y s with
      | .error e => .error (.rule e)
      | .ok (c2, s2) =>
        match playRow L f x rest (y + 1) s2 with
        | .error e => .error e
        | .ok (cs, s3) => .ok (c2 :: cs, s3)

/-- The outer loop of `Life::play` (lib.rs lines 224-230) over the columns of
`self.cells`, threading the rule's captured state left to right. -/
def playCols {ε σ : Type} (L : Life) (f : Rule ε σ) :
    List (List Cell) → Nat → σ → Except (PlayErr ε) (List (List Cell) × σ)
  | [], _, s => .ok ([], s)
  | col :: rest, x, s =>
    match playRow L f x col 0 s with
    | .error e => .error e
    | .ok (col2, s2) =>
      match playCols L f rest (x + 1) s2 with
      | .error e => .error e
      | .ok (cols2, s3) => .ok (col2 :: cols2, s3)

/-- Mirror of `Life::play` (lib.rs lines 221-233): run both loops against the
unmodified current `cells` (the source reads only `self.cells`, never `proto`,
inside the loop), and only after every position has been computed store the
new buffer as the grid's cells (`self.cells = proto`, line 232). On a fault
nothing is published. -/
def Life.play {ε σ : Type} (L : Life) (f : Rule ε σ) (s : σ) :
    Except (PlayErr ε) (Life × σ) :=
  match playCols L f L.cells 0 s with
  | .error e => .error e
  | .ok (cols2, s2) => .ok ({ L with cells := cols2 }, s2)

/-- Mirror of `Life::play_for` (lib.rs lines 266-270):
`for _ in 0..n { self.play(&mut f); }`, faults propagating out. -/
def Life.play_for {ε σ : Type} (L : Life) (n : Nat) (f : Rule ε σ) (s : σ) :
    Except (PlayErr ε) (Life × σ) :=
  match n with
  | 0 => .ok (L, s)
  | m + 1 =>
    match L.play f s with
    | .error e => .error e
    | .ok (L2, s2) => L2.play_for m f s2

/-- The caller's view of `play_for` on a `&mut self` receiver when a fault may
occur: the grid component is the state of `self.cells` after the run, i.e.
after the last successfully completed `play` (a faulting `play` publishes
nothing, since the `self.cells = proto` store is only reached after the whole
loop). The `σ` component is the rule's captured state at the start of the
faulting step (the source makes no guarantee about closure state after a
panic). -/
def Life.play_forRun {ε σ : Type} (L : Life) (n : Nat) (f : Rule ε σ) (s : σ) :
    Life × σ × Option (PlayErr ε) :=
  match n with
  | 0 => (L, s, none)
  | m + 1 =>
    match L.play f s with
    | .error e => (L, s, some e)
    | .ok (L2, s2) => L2.play_forRun m f s2

/-- Modelled from the spec: "invokes `step` with the same rule n consecutive
times, each generation building on the previous generation's published
result" — n sequential calls to `play`, written as `n` calls followed by one
more (the opposite association from `play_for`'s loop). -/
def seqPlays {ε σ : Type} (L : Life) (n : Nat) (f : Rule ε σ) (s : σ) :
    Except (PlayErr ε) (Life × σ) :=
  match n with
  | 0 => .ok (L, s)
  | m + 1 =>
    match seqPlays L m f s with
    | .error e => .error e
    | .ok (L2, s2) => L2.play f s2

/-- Fold of a rule's state update over the invocations of one column:
positions `(x, y0), (x, y0+1), ..., (x, y0+n-1)` in order. -/
def foldUpd {σ : Type} (upd : Nat → Nat → σ → σ) (x : Nat) :
    Nat → Nat → σ → σ
  | _, 0, s => s
  | y0, n + 1, s => foldUpd upd x (y0 + 1) n (upd x y0 s)

/-- Fold of a rule's state update over all invocations of `playCols`. -/
def foldUpdCols {σ : Type} (upd : Nat → Nat → σ → σ) :
    List (List Cell) → Nat → σ → σ
  | [], _, s => s
  | col :: rest, x, s => foldUpdCols upd rest (x + 1) (foldUpd upd x 0 col.length s)

/-- The coordinates `(x, y0), ..., (x, y0+n-1)` of one column's invocations. -/
def rowCoords (x : Nat) : Nat → Nat → List (Nat × Nat)
  | _, 0 => []
  | y0, n + 1 => (x, y0) :: rowCoords x (y0 + 1) n

/-- The coordinates of all invocations of `playCols`, column by column. -/
def colsCoords : List (List Cell) → Nat → List (Nat × Nat)
  | [], _ => []
  | col :: rest, x => rowCoords x 0 col.length ++ colsCoords rest (x + 1)

/-- A rule that always faults with the payload 7 (models a closure that
panics on its first invocation). -/
def failRule : Rule Nat Unit := fun _ _ _ _ _ => .error 7

/-- A 1×1 grid whose `out_of_bounds` fill is red: every neighbour position of
its single cell is out of bounds. -/
def lifeOOBRed : Life :=
  { HEIGHT := 1, WIDTH := 1, cells := [[Cell.dead]], out_of_bounds := Cell.red }

/-- A well-formed grid with HEIGHT = 1 and WIDTH = 2 (one row, two columns in
the `play` convention). -/
def lifeH1W2 : Life :=
  { HEIGHT := 1, WIDTH := 2, cells := [[Cell.dead], [Cell.dead]],
    out_of_bounds := Cell.dead }

/-- A 3×3 grid with nine pairwise distinct cell colours:
`cells[i][j] = Cell.all (3*i + j + 1)`. -/
def life3Distinct : Life :=
  { HEIGHT := 3, WIDTH := 3,
    cells := [[Cell.all 1, Cell.all 2, Cell.all 3],
              [Cell.all 4, Cell.all 5, Cell.all 6],
              [Cell.all 7, Cell.all 8, Cell.all 9]],
    out_of_bounds := Cell.dead }

/-- The grid `life3Distinct` after `set 0 0 (Cell.all 42)`: storage slot
`cells[0][0]` replaced. -/
def life3SetResult : Life :=
  { HEIGHT := 3, WIDTH := 3,
    cells := [[Cell.all 42, Cell.all 2, Cell.all 3],
              [Cell.all 4, Cell.all 5, Cell.all 6],
              [Cell.all 7, Cell.all 8, Cell.all 9]],
    out_of_bounds := Cell.dead }

/-! ## Basic indexing lemmas -/

theorem idx2_eq_some {cols : List (List Cell)} {x y : Nat} {col : List Cell}
    (hc : cols[x]? = some col) {c : Cell} (hy : col[y]? = some c) :
    idx2 cols x y = some c := by
  simp [idx2, hc, hy]

theorem getu_some {L : Life} (hwf : L.wf) {x y : Nat}
    (hx : x < L.WIDTH) (hy : y < L.HEIGHT) : ∃ c, L.getu x y = some c := by
  obtain ⟨hlen, hcols⟩ := hwf
  have hx' : x < L.cells.length := by rw [hlen]; exact hx
  have hcol : L.cells[x]? = some L.cells[x] := List.getElem?_eq_getElem hx'
  have hcl : L.cells[x].length = L.HEIGHT := hcols _ (List.getElem_mem hx')
  have hy' : y < L.cells[x].length := by rw [hcl]; exact hy
  exact ⟨L.cells[x][y], idx2_eq_some hcol (List.getElem?_eq_getElem hy')⟩

theorem readOr_some (L : Life) (gd : Prop) [Decidable gd] (x y : Nat)
    (h : gd → ∃ c, L.getu x y = some c) : ∃ c, L.readOr gd x y = some c := by
  by_cases hg : gd
  · obtain ⟨c, hc⟩ := h hg
    exact ⟨c, by simp [Life.readOr, hg, hc]⟩
  · exact ⟨Cell.default, by simp [Life.readOr, hg]⟩

/-- For a well-formed grid, the neighbour computation at an in-range position
completes (does not hit an out-of-range unchecked read) provided the buggy
bottom-neighbour guard `y ≠ WIDTH - 1` only fires when row `y + 1` exists. -/
theorem get_surrounding_isSome {L : Life} (hwf : L.wf) {x y : Nat}
    (hx : x < L.WIDTH) (hy : y < L.HEIGHT)
    (hbot : y + 1 < L.HEIGHT ∨ y = L.WIDTH - 1) :
    ∃ nb, L.get_surrounding x y = some nb := by
  obtain ⟨cl, hl⟩ := readOr_some L (x ≠ 0) (x - 1) y
    (fun hg => getu_some hwf (by omega) hy)
  obtain ⟨ctl, htl⟩ := readOr_some L (x ≠ 0 ∧ y ≠ 0) (x - 1) (y - 1)
    (fun hg => getu_some hwf (by omega) (by omega))
  obtain ⟨cbl, hbl⟩ := readOr_some L (x ≠ 0 ∧ y ≠ L.HEIGHT - 1) (x - 1) (y + 1)
    (fun hg => getu_some hwf (by omega) (by omega))
  obtain ⟨ct, ht⟩ := readOr_some L (y ≠ 0) x (y - 1)
    (fun hg => getu_some hwf hx (by omega))
  obtain ⟨ctr, htr⟩ := readOr_some L (y ≠ 0 ∧ x ≠ L.WIDTH - 1) (x + 1) (y - 1)
    (fun hg => getu_some hwf (by omega) (by omega))
  obtain ⟨cr, hr⟩ := readOr_some L (x ≠ L.WIDTH - 1) (x + 1) y
    (fun hg => getu_some hwf (by omega) hy)
  obtain ⟨cbr, hbr⟩ := readOr_some L (x ≠ L.WIDTH - 1 ∧ y ≠ L.HEIGHT - 1) (x + 1) (y + 1)
    (fun hg => getu_some hwf (by omega) (by omega))
  obtain ⟨cb, hb⟩ := readOr_some L (y ≠ L.WIDTH - 1) x (y + 1)
    (fun hg => getu_some hwf hx (by cases hbot <;> omega))
  refine ⟨[ctl, ct, ctr, cl, cr, cbl, cb, cbr], ?_⟩
  simp [Life.get_surrounding, hl, htl, hbl, ht, htr, hr, hbr, hb]

/-! ## Inversion and totality of the play loops for state-updating rules -/

theorem playRow_mk_inv {ε σ : Type} (L : Life)
    (g : Cell → List Cell → Nat → Nat → Cell) (upd : Nat → Nat → σ → σ)
    (x : Nat) :
    ∀ (col out : List Cell) (y0 : Nat) (s s2 : σ),
      playRow L (mkRule g upd : Rule ε σ) x col y0 s = .ok (out, s2) →
      out.length = col.length ∧ s2 = foldUpd upd x y0 col.length s ∧
      ∀ k, k < col.length →
        ∃ nb c, L.get_surrounding x (y0 + k) = some nb ∧
          col[k]? = some c ∧ out[k]? = some (g c nb x (y0 + k)) := by
  intro col
  induction col with
  | nil =>
    intro out y0 s s2 h
    simp only [playRow, Except.ok.injEq, Prod.mk.injEq] at h
    obtain ⟨ho, hs2⟩ := h
    subst ho
    subst hs2
    exact ⟨rfl, rfl, fun k hk => absurd hk (by simp)⟩
  | cons cell rest ih =>
    intro out y0 s s2 h
    unfold playRow at h
    split at h
    · exact absurd h (by simp)
    rename_i nb hnb
    simp only [mkRule] at h
    split at h
    · exact absurd h (by simp)
    rename_i cs s3 hrest
    simp only [Except.ok.injEq, Prod.mk.injEq] at h
    obtain ⟨ho, hs3⟩ := h
    subst ho
    subst hs3
    obtain ⟨ih1, ih2, ih3⟩ := ih cs (y0 + 1) (upd x y0 s) s3 hrest
    refine ⟨by simp [ih1], by rw [ih2]; rfl, ?_⟩
    intro k hk
    cases k with
    | zero =>
      refine ⟨nb, cell, ?_, by simp, by simp⟩
      simpa using hnb
    | succ k =>
      obtain ⟨nb2, c2, hg2, hc2, ho2⟩ := ih3 k (by simpa using hk)
      have he : y0 + (k + 1) = y0 + 1 + k := by omega
      refine ⟨nb2, c2, ?_, by simpa using hc2, ?_⟩
      · rw [he]; exact hg2
      · rw [he]; simpa using ho2

theorem playRow_mk_isOk {ε σ : Type} (L : Life)
    (g : Cell → List Cell → Nat → Nat → Cell) (upd : Nat → Nat → σ → σ)
    (x : Nat) :
    ∀ (col : List Cell) (y0 : Nat) (s : σ),
      (∀ k, k < col.length → ∃ nb, L.get_surrounding x (y0 + k) = some nb) →
      ∃ out s2, playRow L (mkRule g upd : Rule ε σ) x col y0 s = .ok (out, s2) := by
  intro col
  induction col with
  | nil => exact fun y0 s _ => ⟨[], s, rfl⟩
  | cons cell rest ih =>
    intro y0 s h
    obtain ⟨nb, hnb⟩ := by simpa using h 0 (by simp)
    obtain ⟨out, s2, hrec⟩ := ih (y0 + 1) (upd x y0 s) (fun k hk => by
      have h2 := h (k + 1) (by simpa using Nat.succ_lt_succ hk)
      have he : y0 + (k + 1) = y0 + 1 + k := by omega
      rwa [he] at h2)
    refine ⟨g cell nb x y0 :: out, s2, ?_⟩
    unfold playRow
    rw [hnb]
    simp only [mkRule]
    rw [hrec]

theorem playCols_mk_inv {ε σ : Type} (L : Life)
    (g : Cell → List Cell → Nat → Nat → Cell) (upd : Nat → Nat → σ → σ) :
    ∀ (cols outs : List (List Cell)) (x0 : Nat) (s s2 : σ),
      playCols L (mkRule g upd : Rule ε σ) cols x0 s = .ok (outs, s2) →
      outs.length = cols.length ∧ s2 = foldUpdCols upd cols x0 s ∧
      ∀ j col, cols[j]? = some col →
        ∃ out, outs[j]? = some out ∧ out.length = col.length ∧
          ∀ k, k < col.length →
            ∃ nb c, L.get_surrounding (x0 + j) k = some nb ∧
              col[k]? = some c ∧ out[k]? = some (g c nb (x0 + j) k) := by
  intro cols
  induction cols with
  | nil =>
    intro outs x0 s s2 h
    simp only [playCols, Except.ok.injEq, Prod.mk.injEq] at h
    obtain ⟨ho, hs2⟩ := h
    subst ho
    subst hs2
    exact ⟨rfl, rfl, fun j col hj => absurd hj (by simp)⟩
  | cons col rest ih =>
    intro outs x0 s s2 h
    unfold playCols at h
    split at h
    · exact absurd h (by simp)
    rename_i col2 sm hrow
    split at h
    · exact absurd h (by simp)
    rename_i outs2 s3 hrest
    simp only [Except.ok.injEq, Prod.mk.injEq] at h
    obtain ⟨ho, hs3⟩ := h
    subst ho
    subst hs3
    obtain ⟨r1, r2, r3⟩ := playRow_mk_inv L g upd x0 col col2 0 s sm hrow
    obtain ⟨ih1, ih2, ih3⟩ := ih outs2 (x0 + 1) sm s3 hrest
    refine ⟨by simp [ih1], ?_, ?_⟩
    · rw [ih2, r2]; rfl
    intro j c hj
    cases j with
    | zero =>
      simp only [List.getElem?_cons_zero, Option.some.injEq] at hj
      subst hj
      refine ⟨col2, by simp, r1, ?_⟩
      intro k hk
      obtain ⟨nb, c2, hg2, hc2, ho2⟩ := r3 k hk
      have he : x0 + 0 = x0 := by omega
      have he2 : (0 : Nat) + k = k := by omega
      rw [he2] at hg2 ho2
      rw [he]
      exact ⟨nb, c2, hg2, hc2, ho2⟩
    | succ j =>
      simp only [List.getElem?_cons_succ] at hj
      obtain ⟨out, hout, hol, hop⟩ := ih3 j c hj
      have he : x0 + (j + 1) = x0 + 1 + j := by omega
      refine ⟨out, by simpa using hout, hol, ?_⟩
      intro k hk
      rw [he]
      exact hop k hk

theorem playCols_mk_isOk {ε σ : Type} (L : Life)
    (g : Cell → List Cell → Nat → Nat → Cell) (upd : Nat → Nat → σ → σ) :
    ∀ (cols : List (List Cell)) (x0 : Nat) (s : σ),
      (∀ j col, cols[j]? = some col → ∀ k, k < col.length →
        ∃ nb, L.get_surrounding (x0 + j) k = some nb) →
      ∃ outs s2, playCols L (mkRule g upd : Rule ε σ) cols x0 s = .ok (outs, s2) := by
  intro cols
  induction cols with
  | nil => exact fun x0 s _ => ⟨[], s, rfl⟩
  | cons col rest ih =>
    intro x0 s h
    obtain ⟨out, sm, hrow⟩ := playRow_mk_isOk L g upd x0 col 0 s (fun k hk => by
      have h2 := h 0 col (by simp) k hk
      simpa using h2)
    obtain ⟨outs, s2, hrec⟩ := ih (x0 + 1) sm (fun j c hj k hk => by
      have h2 := h (j + 1) c (by simpa using hj) k hk
      have he : x0 + (j + 1) = x0 + 1 + j := by omega
      rwa [he] at h2)
    refine ⟨out :: outs, s2, ?_⟩
    show (match playRow L (mkRule g upd : Rule ε σ) x0 col 0 s with
      | Except.error e => Except.error e
      | Except.ok (col2, s2) =>
        match playCols L (mkRule g upd : Rule ε σ) rest (x0 + 1) s2 with
        | Except.error e => Except.error e
        | Except.ok (cols2, s3) => Except.ok (col2 :: cols2, s3)) =
      Except.ok (out :: outs, s2)
    rw [hrow]
    show (match playCols L (mkRule g upd : Rule ε σ) rest (x0 + 1) sm with
      | Except.error e => Except.error e
      | Except.ok (cols2, s3) => Except.ok (out :: cols2, s3)) =
      Except.ok (out :: outs, s2)
    rw [hrec]

/-- On a well-formed SQUARE grid (HEIGHT = WIDTH) every `get_surrounding`
call made by `play` stays in bounds, so `play` completes for every
never-faulting rule. -/
theorem play_mk_ok {ε σ : Type} {L : Life}
    (g : Cell → List Cell → Nat → Nat → Cell) (upd : Nat → Nat → σ → σ)
    (hwf : L.wf) (hsq : L.HEIGHT = L.WIDTH) (s : σ) :
    ∃ cols2 s2, L.play (mkRule g upd : Rule ε σ) s = .ok ({ L with cells := cols2 }, s2) ∧
      playCols L (mkRule g upd : Rule ε σ) L.cells 0 s = .ok (cols2, s2) := by
  obtain ⟨outs, s2, hcols⟩ := playCols_mk_isOk L g upd L.cells 0 s (by
    intro j col hj k hk
    obtain ⟨hjl, hjc⟩ := List.getElem?_eq_some.mp hj
    have hjw : j < L.WIDTH := by rw [← hwf.1]; exact hjl
    have hcl : col.length = L.HEIGHT := by
      rw [← hjc]; exact hwf.2 _ (List.getElem_mem hjl)
    have hkh : k < L.HEIGHT := by rw [← hcl]; exact hk
    have h0 : 0 + j = j := by omega
    rw [h0]
    exact get_surrounding_isSome hwf hjw hkh (by omega))
  refine ⟨outs, s2, ?_, hcols⟩
  unfold Life.play
  rw [hcols]

/-! ## Rule-state folds for the pure and logging rules -/

theorem foldUpd_log (x : Nat) :
    ∀ (n y0 : Nat) (log : List (Nat × Nat)),
      foldUpd (fun a b log => log ++ [(a, b)]) x y0 n log = log ++ rowCoords x y0 n := by
  intro n
  induction n with
  | zero => intro y0 log; simp [foldUpd, rowCoords]
  | succ n ih =>
    intro y0 log
    show foldUpd (fun a b log => log ++ [(a, b)]) x (y0 + 1) n (log ++ [(x, y0)]) = _
    rw [ih (y0 + 1) (log ++ [(x, y0)])]
    simp [rowCoords]

theorem foldUpdCols_log :
    ∀ (cols : List (List Cell)) (x0 : Nat) (log : List (Nat × Nat)),
      foldUpdCols (fun a b log => log ++ [(a, b)]) cols x0 log =
        log ++ colsCoords cols x0 := by
  intro cols
  induction cols with
  | nil => intro x0 log; simp [foldUpdCols, colsCoords]
  | cons col rest ih =>
    intro x0 log
    show foldUpdCols (fun a b log => log ++ [(a, b)]) rest (x0 + 1)
      (foldUpd (fun a b log => log ++ [(a, b)]) x0 0 col.length log) = _
    rw [foldUpd_log, ih]
    simp [colsCoords]

theorem countP_rowCoords (x : Nat) (px py : Nat) :
    ∀ (n y0 : Nat),
      (rowCoords x y0 n).countP (fun q => decide (q = (px, py))) =
        if px = x ∧ y0 ≤ py ∧ py < y0 + n then 1 else 0 := by
  intro n
  induction n with
  | zero =>
    intro y0
    simp only [rowCoords, List.countP_nil]
    rw [if_neg (by omega)]
  | succ n ih =>
    intro y0
    show ((x, y0) :: rowCoords x (y0 + 1) n).countP _ = _
    rw [List.countP_cons, ih (y0 + 1)]
    simp only [decide_eq_true_eq, Prod.mk.injEq]
    split_ifs <;> omega

theorem countP_colsCoords (px py H : Nat) :
    ∀ (cols : List (List Cell)) (x0 : Nat),
      (∀ col ∈ cols, col.length = H) →
      (colsCoords cols x0).countP (fun q => decide (q = (px, py))) =
        if x0 ≤ px ∧ px < x0 + cols.length ∧ py < H then 1 else 0 := by
  intro cols
  induction cols with
  | nil =>
    intro x0 _
    simp only [colsCoords, List.countP_nil, List.length_nil]
    rw [if_neg (by omega)]
  | cons col rest ih =>
    intro x0 h
    show ((rowCoords x0 0 col.length) ++ colsCoords rest (x0 + 1)).countP _ = _
    rw [List.countP_append, countP_rowCoords, ih (x0 + 1) (fun c hc => h c (by simp [hc]))]
    have hcl : col.length = H := h col (by simp)
    rw [hcl]
    simp only [List.length_cons]
    split_ifs <;> omega

/-! ## Claim C1 -/

/-- Counterexample to C1 as stated: on the well-formed grid with positive
dimensions HEIGHT = 1 and WIDTH = 2 and the pure rule that keeps every cell
unchanged, `play` produces no new generation at all — the neighbour
computation's bottom-row bound check reads out of the cell array, so the step
faults and the per-position result formula cannot hold. -/
theorem play_nonsquare_counterexample :
    lifeH1W2.wf ∧ 0 < lifeH1W2.HEIGHT ∧ 0 < lifeH1W2.WIDTH ∧
    lifeH1W2.play (pureRule (fun c _ _ _ => c)) () = .error PlayErr.oob :=
  ⟨by decide, by decide, by decide, rfl⟩

/-- Claim C1 (amended): for every well-formed grid with HEIGHT = WIDTH, `play`
invokes the rule exactly once per grid position (the instrumented run's log
contains each in-range coordinate pair exactly once and nothing else), each
invocation receives the pre-step cell and the pre-step neighbour set, and the
published cell array satisfies, at every position, the formula
new = f(old cell, old-generation neighbour set, x, y). The restriction
HEIGHT = WIDTH is forced by the bottom-neighbour bound check of
`get_surrounding` (`y != WIDTH - 1`, lib.rs line 184), which makes `play`
fault on every positive non-square grid before publishing anything. -/
theorem play_synchronous_update (L : Life)
    (f : Cell → List Cell → Nat → Nat → Cell)
    (hwf : L.wf) (hsq : L.HEIGHT = L.WIDTH) :
    ∃ cols,
      L.play (pureRule f) () = .ok ({ L with cells := cols }, ()) ∧
      cols.length = L.WIDTH ∧
      (∀ x y, x < L.WIDTH → y < L.HEIGHT →
        ∃ old nb, idx2 L.cells x y = some old ∧
          L.get_surrounding x y = some nb ∧
          idx2 cols x y = some (f old nb x y)) ∧
      (∃ log, L.play (logRule f) [] = .ok ({ L with cells := cols }, log) ∧
        ∀ px py : Nat,
          log.countP (fun q => decide (q = (px, py))) =
            if px < L.WIDTH ∧ py < L.HEIGHT then 1 else 0) := by
  have hpure : ∃ cols2 s2,
      L.play (mkRule f (fun _ _ s => s) : Rule Empty Unit) () =
        .ok ({ L with cells := cols2 }, s2) ∧
      playCols L (mkRule f (fun _ _ s => s) : Rule Empty Unit) L.cells 0 () =
        .ok (cols2, s2) :=
    play_mk_ok f (fun _ _ s => s) hwf hsq ()
  have hlog : ∃ cols2 s2,
      L.play (mkRule f (fun a b log => log ++ [(a, b)]) :
          Rule Empty (List (Nat × Nat))) [] =
        .ok ({ L with cells := cols2 }, s2) ∧
      playCols L (mkRule f (fun a b log => log ++ [(a, b)]) :
          Rule Empty (List (Nat × Nat))) L.cells 0 [] =
        .ok (cols2, s2) :=
    play_mk_ok f (fun a b log => log ++ [(a, b)]) hwf hsq []
  obtain ⟨colsP, sP, hP, hPc⟩ := hpure
  obtain ⟨colsL, sL, hL, hLc⟩ := hlog
  obtain ⟨lenP, hsP, hptP⟩ :=
    playCols_mk_inv L f (fun _ _ s => s) L.cells colsP 0 () sP hPc
  obtain ⟨lenL, hsL, hptL⟩ :=
    playCols_mk_inv L f (fun a b log => log ++ [(a, b)]) L.cells colsL 0 [] sL hLc
  have hcolseq : colsP = colsL := by
    apply List.ext_getElem?
    intro j
    by_cases hj : j < L.cells.length
    · have hcj : L.cells[j]? = some L.cells[j] := List.getElem?_eq_getElem hj
      obtain ⟨out1, ho1, hl1, hp1⟩ := hptP j _ hcj
      obtain ⟨out2, ho2, hl2, hp2⟩ := hptL j _ hcj
      rw [ho1, ho2]
      congr 1
      apply List.ext_getElem?
      intro k
      by_cases hk : k < L.cells[j].length
      · obtain ⟨nb1, c1, hg1, hc1, hv1⟩ := hp1 k hk
        obtain ⟨nb2, c2, hg2, hc2, hv2⟩ := hp2 k hk
        rw [hv1, hv2]
        rw [hg1] at hg2
        injection hg2 with hnb
        rw [hc1] at hc2
        injection hc2 with hcc
        rw [hnb, hcc]
      · rw [List.getElem?_eq_none (by omega), List.getElem?_eq_none (by omega)]
    · rw [List.getElem?_eq_none (by omega), List.getElem?_eq_none (by omega)]
  refine ⟨colsP, hP, by rw [lenP, hwf.1], ?_, ?_⟩
  · intro x y hx hy
    have hx' : x < L.cells.length := by rw [hwf.1]; exact hx
    have hcx : L.cells[x]? = some L.cells[x] := List.getElem?_eq_getElem hx'
    obtain ⟨out, hout, hol, hop⟩ := hptP x _ hcx
    have hcl : L.cells[x].length = L.HEIGHT := hwf.2 _ (List.getElem_mem hx')
    obtain ⟨nb, c0, hg, hc0, hv⟩ := hop y (by rw [hcl]; exact hy)
    have h0 : (0 : Nat) + x = x := by omega
    rw [h0] at hg hv
    exact ⟨c0, nb, idx2_eq_some hcx hc0, hg, idx2_eq_some hout hv⟩
  · refine ⟨sL, by rw [hcolseq]; exact hL, ?_⟩
    intro px py
    have hlog2 : sL = colsCoords L.cells 0 := by
      rw [hsL, foldUpdCols_log]
      simp
    rw [hlog2, countP_colsCoords px py L.HEIGHT L.cells 0 hwf.2]
    rw [hwf.1]
    split_ifs <;> omega

/-- Witness for the amended C1 on the square 1×1 grid with the identity
rule. -/
theorem play_synchronous_update_witness :
    ∃ cols,
      lifeOOBRed.play (pureRule (fun c _ _ _ => c)) () =
        .ok ({ lifeOOBRed with cells := cols }, ()) ∧
      cols.length = lifeOOBRed.WIDTH ∧
      (∀ x y, x < lifeOOBRed.WIDTH → y < lifeOOBRed.HEIGHT →
        ∃ old nb, idx2 lifeOOBRed.cells x y = some old ∧
          lifeOOBRed.get_surrounding x y = some nb ∧
          idx2 cols x y = some old) ∧
      (∃ log, lifeOOBRed.play (logRule (fun c _ _ _ => c)) [] =
          .ok ({ lifeOOBRed with cells := cols }, log) ∧
        ∀ px py : Nat,
          log.countP (fun q => decide (q = (px, py))) =
            if px < lifeOOBRed.WIDTH ∧ py < lifeOOBRed.HEIGHT then 1 else 0) :=
  play_synchronous_update lifeOOBRed (fun c _ _ _ => c) (by decide) rfl

/-! ## Claim C10 -/

/-- Claim C10: for every byte triple (r,g,b), `is_alive` is true iff at least
one channel is nonzero; in particular it is false on (0,0,0) and true on
(1,0,0), (0,1,0) and (0,0,1). -/
theorem is_alive_iff_nonzero (r g b : Nat)
    (hr : r < 256) (hg : g < 256) (hb : b < 256) :
    ((Cell.mk r g b).is_alive = true ↔ (r ≠ 0 ∨ g ≠ 0 ∨ b ≠ 0)) ∧
    Cell.is_alive ⟨0, 0, 0⟩ = false ∧ Cell.is_alive ⟨1, 0, 0⟩ = true ∧
    Cell.is_alive ⟨0, 1, 0⟩ = true ∧ Cell.is_alive ⟨0, 0, 1⟩ = true := by
  refine ⟨?_, by decide, by decide, by decide, by decide⟩
  simp [Cell.is_alive, or_assoc]

/-- Witness for C10 at the byte triple (1,0,0). -/
theorem is_alive_iff_nonzero_witness :
    ((Cell.mk 1 0 0).is_alive = true ↔ ((1 : Nat) ≠ 0 ∨ (0 : Nat) ≠ 0 ∨ (0 : Nat) ≠ 0)) ∧
    Cell.is_alive ⟨0, 0, 0⟩ = false ∧ Cell.is_alive ⟨1, 0, 0⟩ = true ∧
    Cell.is_alive ⟨0, 1, 0⟩ = true ∧ Cell.is_alive ⟨0, 0, 1⟩ = true :=
  is_alive_iff_nonzero 1 0 0 (by decide) (by decide) (by decide)

/-! ## Claim C6 -/

theorem get_eq_idx2 (L : Life) (a b : Nat) : L.get a b = idx2 L.cells b a := rfl

theorem set_some {L : Life} {a b : Nat} {row : List Cell} {c0 : Cell}
    (hrow : L.cells[b]? = some row) (hc : row[a]? = some c0) (c : Cell) :
    L.set a b c = some { L with cells := L.cells.set b (row.set a c) } := by
  show (match L.cells[b]? with
    | none => none
    | some row =>
      match row[a]? with
      | none => none
      | some _ => some { L with cells := L.cells.set b (row.set a c) }) = _
  rw [hrow]
  show (match row[a]? with
    | none => none
    | some _ => some { L with cells := L.cells.set b (row.set a c) }) = _
  rw [hc]

/-- Claim C6: the rule invocation that `play` makes with coordinate arguments
x = i, y = j receives as its current-cell argument the storage slot
`cells[i][j]`; the checked accessors `get`/`set` address that same slot with
the arguments swapped, i.e. as (x = j, y = i); and `play` writes the rule's
result back to that same transposed slot. -/
theorem play_transposed_convention (L L2 : Life)
    (f : Cell → List Cell → Nat → Nat → Cell) (c : Cell) (i j : Nat)
    (hwf : L.wf)
    (hok : L.play (pureRule f) () = .ok (L2, ()))
    (hi : i < L.WIDTH) (hj : j < L.HEIGHT) :
    ∃ old nb L3,
      idx2 L.cells i j = some old ∧
      L.get j i = some old ∧
      L.get_surrounding i j = some nb ∧
      idx2 L2.cells i j = some (f old nb i j) ∧
      L2.get j i = some (f old nb i j) ∧
      L.set j i c = some L3 ∧
      idx2 L3.cells i j = some c := by
  unfold Life.play at hok
  split at hok
  · exact absurd hok (by simp)
  rename_i cols2 s2 hpc
  simp only [Except.ok.injEq, Prod.mk.injEq] at hok
  obtain ⟨hL2, _⟩ := hok
  obtain ⟨lenP, hsP, hpt⟩ :=
    playCols_mk_inv L f (fun _ _ s => s) L.cells cols2 0 () s2 hpc
  have hi' : i < L.cells.length := by rw [hwf.1]; exact hi
  have hci : L.cells[i]? = some L.cells[i] := List.getElem?_eq_getElem hi'
  obtain ⟨out, hout, hol, hop⟩ := hpt i _ hci
  have hcl : L.cells[i].length = L.HEIGHT := hwf.2 _ (List.getElem_mem hi')
  have hj' : j < L.cells[i].length := by rw [hcl]; exact hj
  obtain ⟨nb, c0, hg, hc0, hv⟩ := hop j hj'
  have h0 : (0 : Nat) + i = i := by omega
  rw [h0] at hg hv
  refine ⟨c0, nb, { L with cells := L.cells.set i (L.cells[i].set j c) },
    idx2_eq_some hci hc0, ?_, hg, ?_, ?_, set_some hci hc0 c, ?_⟩
  · rw [get_eq_idx2]
    exact idx2_eq_some hci hc0
  · rw [← hL2]
    exact idx2_eq_some hout hv
  · rw [get_eq_idx2, ← hL2]
    exact idx2_eq_some hout hv
  · show idx2 (L.cells.set i (L.cells[i].set j c)) i j = some c
    have h1 : (L.cells.set i (L.cells[i].set j c))[i]? = some (L.cells[i].set j c) := by
      rw [List.getElem?_set]
      simp [hi']
    have h2 : (L.cells[i].set j c)[j]? = some c := by
      rw [List.getElem?_set]
      simp [hj']
    exact idx2_eq_some h1 h2

/-- Witness for C6 on the 1×1 grid with the identity rule at (i, j) = (0, 0). -/
theorem play_transposed_convention_witness :
    ∃ old nb L3,
      idx2 lifeOOBRed.cells 0 0 = some old ∧
      lifeOOBRed.get 0 0 = some old ∧
      lifeOOBRed.get_surrounding 0 0 = some nb ∧
      idx2 lifeOOBRed.cells 0 0 = some old ∧
      lifeOOBRed.get 0 0 = some old ∧
      lifeOOBRed.set 0 0 Cell.red = some L3 ∧
      idx2 L3.cells 0 0 = some Cell.red :=
  play_transposed_convention lifeOOBRed lifeOOBRed (fun c _ _ _ => c) Cell.red
    0 0 (by decide) rfl (by decide) (by decide)

/-! ## Claim C7 -/

theorem play_for_succ {ε σ : Type} (f : Rule ε σ) :
    ∀ (n : Nat) (L : Life) (s : σ),
      L.play_for (n + 1) f s =
        match L.play_for n f s with
        | .error e => .error e
        | .ok (L2, s2) => L2.play f s2 := by
  intro n
  induction n with
  | zero =>
    intro L s
    show (match L.play f s with
      | Except.error e => Except.error e
      | Except.ok (L2, s2) => L2.play_for 0 f s2) = L.play f s
    cases h : L.play f s with
    | error e => rfl
    | ok p =>
      obtain ⟨L2, s2⟩ := p
      rfl
  | succ n ih =>
    intro L s
    cases h : L.play f s with
    | error e =>
      have hr : L.play_for (n + 1) f s = Except.error e := by
        show (match L.play f s with
          | Except.error e => Except.error e
          | Except.ok (L2, s2) => L2.play_for n f s2) = _
        rw [h]
      show (match L.play f s with
        | Except.error e => Except.error e
        | Except.ok (L2, s2) => L2.play_for (n + 1) f s2) =
        (match L.play_for (n + 1) f s with
          | Except.error e => Except.error e
          | Except.ok (L2, s2) => L2.play f s2)
      rw [h, hr]
    | ok p =>
      obtain ⟨L2, s2⟩ := p
      have hr : L.play_for (n + 1) f s = L2.play_for n f s2 := by
        show (match L.play f s with
          | Except.error e => Except.error e
          | Except.ok (L2, s2) => L2.play_for n f s2) = _
        rw [h]
      show (match L.play f s with
        | Except.error e => Except.error e
        | Except.ok (L2, s2) => L2.play_for (n + 1) f s2) =
        (match L.play_for (n + 1) f s with
          | Except.error e => Except.error e
          | Except.ok (L2, s2) => L2.play f s2)
      rw [h]
      show L2.play_for (n + 1) f s2 =
        (match L.play_for (n + 1) f s with
          | Except.error e => Except.error e
          | Except.ok (L2, s2) => L2.play f s2)
      rw [hr, ih L2 s2]

/-- Claim C7: `play_for n` computes exactly the n-fold sequential composition
of `play` (the rule being invoked at every intermediate generation, with its
captured state and any fault threaded through), and `play_for 0` is a no-op
returning the grid unchanged. -/
theorem play_for_eq_seqPlays {ε σ : Type} (L : Life) (n : Nat) (f : Rule ε σ)
    (s : σ) :
    L.play_for n f s = seqPlays L n f s ∧ L.play_for 0 f s = .ok (L, s) := by
  refine ⟨?_, rfl⟩
  induction n with
  | zero => rfl
  | succ n ih =>
    rw [play_for_succ f n L s]
    show _ = (match seqPlays L n f s with
      | Except.error e => Except.error e
      | Except.ok (L2, s2) => L2.play f s2)
    rw [ih]

/-! ## Claim C9 -/

/-- Claim C9: if the rule faults at some generation during `play_for n`, the
fault propagates out (the run's outcome is exactly that error), and the
grid's storage is left exactly as the last successfully published generation:
there is a k < n such that the published grid is the result of k successful
`play` steps, and the very next `play` from it faults with the same error —
no partially computed generation is ever published. -/
theorem play_for_fault_preserves_grid {ε σ : Type} (L : Life) (n : Nat)
    (f : Rule ε σ) (s : σ) (e : PlayErr ε)
    (h : (L.play_forRun n f s).2.2 = some e) :
    L.play_for n f s = .error e ∧
    ∃ k, k < n ∧ ∃ sk,
      L.play_for k f s = .ok ((L.play_forRun n f s).1, sk) ∧
      ((L.play_forRun n f s).1).play f sk = .error e := by
  induction n generalizing L s with
  | zero => simp [Life.play_forRun] at h
  | succ n ih =>
    cases hp : L.play f s with
    | error e2 =>
      have hrun : L.play_forRun (n + 1) f s = (L, s, some e2) := by
        show (match L.play f s with
          | Except.error e => (L, s, some e)
          | Except.ok (L2, s2) => L2.play_forRun n f s2) = _
        rw [hp]
      rw [hrun] at h ⊢
      simp only [Option.some.injEq] at h
      subst h
      refine ⟨?_, 0, by omega, s, rfl, hp⟩
      show (match L.play f s with
        | Except.error e => Except.error e
        | Except.ok (L2, s2) => L2.play_for n f s2) = _
      rw [hp]
    | ok p =>
      obtain ⟨L2, s2⟩ := p
      have hrun : L.play_forRun (n + 1) f s = L2.play_forRun n f s2 := by
        show (match L.play f s with
          | Except.error e => (L, s, some e)
          | Except.ok (L2, s2) => L2.play_forRun n f s2) = _
        rw [hp]
      rw [hrun] at h ⊢
      obtain ⟨h1, k, hk, sk, h2, h3⟩ := ih L2 s2 h
      refine ⟨?_, k + 1, by omega, sk, ?_, h3⟩
      · show (match L.play f s with
          | Except.error e => Except.error e
          | Except.ok (L2, s2) => L2.play_for n f s2) = _
        rw [hp]
        exact h1
      · show (match L.play f s with
          | Except.error e => Except.error e
          | Except.ok (L2, s2) => L2.play_for k f s2) = _
        rw [hp]
        exact h2

/-- Witness for C9: one step on the 1×1 grid with an always-faulting rule. -/
theorem play_for_fault_preserves_grid_witness :
    lifeOOBRed.play_for 1 failRule () = .error (PlayErr.rule 7) ∧
    ∃ k, k < 1 ∧ ∃ sk,
      lifeOOBRed.play_for k failRule () =
        .ok ((lifeOOBRed.play_forRun 1 failRule ()).1, sk) ∧
      ((lifeOOBRed.play_forRun 1 failRule ()).1).play failRule sk =
        .error (PlayErr.rule 7) :=
  play_for_fault_preserves_grid lifeOOBRed 1 failRule () (PlayErr.rule 7) rfl

/-! ## Claim C4 -/

/-- Counterexample to C4 as stated: on the 3×3 grid with nine pairwise
distinct colours, the neighbour set of the centre has, at slot 1 ("top"),
the cell `cells[1][0]` = `Cell.all 4`, whereas the claimed lookup
`get(1,0)` reads `cells[0][1]` = `Cell.all 2`. -/
theorem neighbor_order_claimed_counterexample :
    life3Distinct.get_surrounding 1 1 =
      some [Cell.all 1, Cell.all 4, Cell.all 7, Cell.all 2, Cell.all 8,
            Cell.all 3, Cell.all 6, Cell.all 9] ∧
    life3Distinct.get 1 0 = some (Cell.all 2) ∧
    Cell.all 4 ≠ Cell.all 2 := by decide

/-- Claim C4 (amended): for every well-formed 3×3 grid, the neighbour set of
the centre (1,1) equals, in the fixed order top-left, top, top-right, left,
right, bottom-left, bottom, bottom-right, the values of the indexed lookups
get(0,0), get(0,1), get(0,2), get(1,0), get(1,2), get(2,0), get(2,1),
get(2,2) — the lookups of the original claim with each coordinate pair
transposed, `get`'s (x,y) convention being the transpose of the neighbour
computation's. -/
theorem neighbor_order_transposed (L : Life) (hwf : L.wf)
    (hH : L.HEIGHT = 3) (hW : L.WIDTH = 3) :
    ∃ s, L.get_surrounding 1 1 = some s ∧
      s.length = 8 ∧
      L.get 0 0 = s[0]? ∧ L.get 0 1 = s[1]? ∧ L.get 0 2 = s[2]? ∧
      L.get 1 0 = s[3]? ∧ L.get 1 2 = s[4]? ∧
      L.get 2 0 = s[5]? ∧ L.get 2 1 = s[6]? ∧ L.get 2 2 = s[7]? := by
  obtain ⟨hlen, hcols⟩ := hwf
  obtain ⟨H, W, cells, oob⟩ := L
  dsimp only at hH hW hlen hcols
  subst hH
  subst hW
  obtain ⟨c0, c1, c2, hc⟩ := List.length_eq_three.mp hlen
  subst hc
  obtain ⟨a0, a1, a2, ha⟩ := List.length_eq_three.mp (hcols c0 (by simp))
  obtain ⟨b0, b1, b2, hb⟩ := List.length_eq_three.mp (hcols c1 (by simp))
  obtain ⟨d0, d1, d2, hd⟩ := List.length_eq_three.mp (hcols c2 (by simp))
  subst ha
  subst hb
  subst hd
  exact ⟨[a0, b0, d0, a1, d1, a2, b2, d2],
    rfl, rfl, rfl, rfl, rfl, rfl, rfl, rfl, rfl, rfl⟩

/-- Witness for the amended C4 on the concrete distinct-colour 3×3 grid. -/
theorem neighbor_order_transposed_witness :
    ∃ s, life3Distinct.get_surrounding 1 1 = some s ∧
      s.length = 8 ∧
      life3Distinct.get 0 0 = s[0]? ∧ life3Distinct.get 0 1 = s[1]? ∧
      life3Distinct.get 0 2 = s[2]? ∧ life3Distinct.get 1 0 = s[3]? ∧
      life3Distinct.get 1 2 = s[4]? ∧ life3Distinct.get 2 0 = s[5]? ∧
      life3Distinct.get 2 1 = s[6]? ∧ life3Distinct.get 2 2 = s[7]? :=
  neighbor_order_transposed life3Distinct (by decide) rfl rfl

/-! ## Claim C2 -/

/-- Claim C2 (code bug): the neighbour computation never reads the grid's
`out_of_bounds` field. On a 1×1 grid whose `out_of_bounds` is red, every
neighbour position of the single cell (0,0) is out of bounds, yet all eight
slots come back as `Cell::default()` (dead), not red — contradicting the
crate's own documentation of the `out_of_bounds` field (lib.rs lines 55, 199,
243). -/
theorem get_surrounding_ignores_out_of_bounds :
    lifeOOBRed.out_of_bounds = Cell.red ∧
    lifeOOBRed.get_surrounding 0 0 = some (List.replicate 8 Cell.default) ∧
    Cell.default ≠ Cell.red := by decide

/-! ## Claim C3 -/

/-- Claim C3 (code bug): on the well-formed positive-dimension grid with
HEIGHT = 1 and WIDTH = 2, the neighbour computation at the in-bounds position
(0,0) performs an out-of-bounds array access: the bottom-neighbour guard
compares `y != WIDTH - 1` (lib.rs line 184) instead of `y != HEIGHT - 1`, so
with y = 0 = HEIGHT - 1 but WIDTH - 1 = 1 it reads `cells[0][1]` past the end
of the length-1 column. -/
theorem get_surrounding_bottom_check_faults :
    0 < lifeH1W2.HEIGHT ∧ 0 < lifeH1W2.WIDTH ∧ lifeH1W2.wf ∧
    lifeH1W2.get_surrounding 0 0 = none := by decide

/-! ## Claim C5 -/

/-- Counterexample to C5 as stated: on the grid with HEIGHT = 1 and WIDTH = 2,
the coordinates x = 1, y = 0 satisfy the claimed precondition
0 ≤ x < WIDTH ∧ 0 ≤ y < HEIGHT, yet `get` faults: it indexes `cells[y][x]`,
whose inner array has length HEIGHT = 1. -/
theorem get_claimed_precondition_fails :
    lifeH1W2.wf ∧ 1 < lifeH1W2.WIDTH ∧ 0 < lifeH1W2.HEIGHT ∧
    lifeH1W2.get 1 0 = none ∧ lifeH1W2.set 1 0 Cell.red = none ∧
    lifeH1W2.get_mut 1 0 = none := by decide

/-- Claim C5 (amended): `get`/`get_mut`/`set` succeed exactly for
0 ≤ x < HEIGHT and 0 ≤ y < WIDTH — they index `cells[y][x]`, whose outer
array has length WIDTH and whose inner arrays have length HEIGHT — and fault
exactly when that precondition is violated. -/
theorem grid_access_bounds (L : Life) (x y : Nat) (c : Cell) (hwf : L.wf) :
    ((L.get x y).isSome ↔ (x < L.HEIGHT ∧ y < L.WIDTH)) ∧
    ((L.get_mut x y).isSome ↔ (x < L.HEIGHT ∧ y < L.WIDTH)) ∧
    ((L.set x y c).isSome ↔ (x < L.HEIGHT ∧ y < L.WIDTH)) := by
  obtain ⟨hlen, hcols⟩ := hwf
  by_cases hy : y < L.WIDTH
  · have hy' : y < L.cells.length := by rw [hlen]; exact hy
    have hrow : L.cells[y]? = some L.cells[y] := List.getElem?_eq_getElem hy'
    have hrl : L.cells[y].length = L.HEIGHT := hcols _ (List.getElem_mem hy')
    by_cases hx : x < L.HEIGHT
    · have hx' : x < L.cells[y].length := by rw [hrl]; exact hx
      have hcell : L.cells[y][x]? = some L.cells[y][x] := List.getElem?_eq_getElem hx'
      simp [Life.get, Life.get_mut, Life.set, hrow, hcell, hx, hy]
    · have hcell : L.cells[y][x]? = none := List.getElem?_eq_none (by omega)
      simp [Life.get, Life.get_mut, Life.set, hrow, hcell, hx, hy]
  · have hrow : L.cells[y]? = none := List.getElem?_eq_none (by omega)
    simp [Life.get, Life.get_mut, Life.set, hrow, hy]

/-- Witness for the amended C5 on the concrete 3×3 grid at (x,y) = (2,1). -/
theorem grid_access_bounds_witness :
    ((life3Distinct.get 2 1).isSome ↔
      (2 < life3Distinct.HEIGHT ∧ 1 < life3Distinct.WIDTH)) ∧
    ((life3Distinct.get_mut 2 1).isSome ↔
      (2 < life3Distinct.HEIGHT ∧ 1 < life3Distinct.WIDTH)) ∧
    ((life3Distinct.set 2 1 Cell.red).isSome ↔
      (2 < life3Distinct.HEIGHT ∧ 1 < life3Distinct.WIDTH)) :=
  grid_access_bounds life3Distinct 2 1 Cell.red (by decide)

/-! ## Claim C8 -/

/-- Claim C8: if `set x y c` succeeds then `get x y` on the result returns
exactly `c`, every other position is unchanged, and so is the
`out_of_bounds` field. -/
theorem set_get_frame (L L' : Life) (x y : Nat) (c : Cell)
    (hs : L.set x y c = some L') :
    L'.get x y = some c ∧
    (∀ x' y', ¬(x' = x ∧ y' = y) → L'.get x' y' = L.get x' y') ∧
    L'.out_of_bounds = L.out_of_bounds := by
  unfold Life.set at hs
  split at hs
  · exact absurd hs (by simp)
  rename_i row hrow
  split at hs
  · exact absurd hs (by simp)
  rename_i c0 hcell
  simp only [Option.some.injEq] at hs
  obtain ⟨hy, hyr⟩ := List.getElem?_eq_some.mp hrow
  obtain ⟨hx, hxr⟩ := List.getElem?_eq_some.mp hcell
  subst hs
  refine ⟨?_, ?_, rfl⟩
  · show (match (L.cells.set y (row.set x c))[y]? with
      | none => none
      | some row2 => row2[x]?) = some c
    have h1 : (L.cells.set y (row.set x c))[y]? = some (row.set x c) := by
      rw [List.getElem?_set]
      simp [hy]
    rw [h1]
    show (row.set x c)[x]? = some c
    rw [List.getElem?_set]
    simp [hx]
  · intro x' y' hne
    show (match (L.cells.set y (row.set x c))[y']? with
      | none => none
      | some row2 => row2[x']?) = L.get x' y'
    by_cases hyy : y = y'
    · subst hyy
      have h1 : (L.cells.set y (row.set x c))[y]? = some (row.set x c) := by
        rw [List.getElem?_set]
        simp [hy]
      have hxx : ¬ x = x' := fun h => hne ⟨h.symm, rfl⟩
      rw [h1]
      show (row.set x c)[x']? = L.get x' y
      rw [List.getElem?_set]
      simp only [hxx, if_false]
      simp [Life.get, hrow]
    · have h1 : (L.cells.set y (row.set x c))[y']? = L.cells[y']? := by
        rw [List.getElem?_set]
        simp [hyy]
      rw [h1]
      rfl

/-- Witness for C8: set (0,0) of the 3×3 grid to `Cell.all 42`. -/
theorem set_get_frame_witness :
    life3SetResult.get 0 0 = some (Cell.all 42) ∧
    life3SetResult.get 1 2 = life3Distinct.get 1 2 ∧
    life3SetResult.out_of_bounds = life3Distinct.out_of_bounds := by
  obtain ⟨h1, h2, h3⟩ :=
    set_get_frame life3Distinct life3SetResult 0 0 (Cell.all 42) (by decide)
  exact ⟨h1, h2 1 2 (by decide), h3⟩

end YourGameOfLife
